import Mathlib

/- A verification development for the bxilog core (bxibase).  The C source
   (src/misc/doc/bxilog/bxilog-fsm.dot, which embeds the log.c implementation)
   is shallowly embedded below: C strings are List Char without the trailing
   NUL byte unless stated otherwise, machine integers are Nat/Int, fallible
   platform calls are parameters or Option results, and the global mutable
   state (STATE, REGISTERED_LOGGERS, ...) is passed explicitly. -/

/-- The NUL byte that terminates a C string. -/
def nulChar : Char := Char.ofNat 0

/-- bxilog_level_e: the 12 severities in the order of the source arrays
_LOG_LEVEL_NAMES and LOG_LEVEL_STR (panic first, lowest last). -/
inductive bxilog_level_e where
  | panic
  | alert
  | critical
  | error
  | warning
  | notice
  | output
  | info
  | debug
  | fine
  | trace
  | lowest
deriving DecidableEq, Repr

/-- The numeric value of a level: its index into LOG_LEVEL_STR, panic = 0 up
to lowest = 11 (the enum is declared without explicit values in the header, so
the values are the positional ones used by LOG_LEVEL_STR[header->level]). -/
def levelNat : bxilog_level_e → Nat
  | .panic => 0
  | .alert => 1
  | .critical => 2
  | .error => 3
  | .warning => 4
  | .notice => 5
  | .output => 6
  | .info => 7
  | .debug => 8
  | .fine => 9
  | .trace => 10
  | .lowest => 11

/-- bxierr_p results, collapsed to the error kinds produced by the embedded
operations; ok stands for BXIERR_OK. -/
inductive bxierr where
  | ok
  | illegal_state
  | config_err
  | clock_err
  | retries_max_err
  | platform_err
  | proto_err
deriving DecidableEq, Repr

/-- bxilog_state_e, the lifecycle finite state machine states. -/
inductive bxilog_state_e where
  | UNSET
  | INITIALIZING
  | INITIALIZED
  | FINALIZING
  | FINALIZED
  | ILLEGAL
  | FORKED
deriving DecidableEq, Repr

/-- struct bxilog_s: a named filter.  name_length in the source is always
name.length + 1 (strlen + NUL), so it is not stored separately here. -/
structure bxilog_s where
  name : List Char
  level : bxilog_level_e
deriving DecidableEq, Repr

/-- Modelled from the spec: bxilog_is_enabled_for is declared `Defined inline
in bxilog.h` in the source and the header is not among the sources; the spec
states that it returns `level <= logger.level` (record emitted only if its
level is numerically at most the logger's configured level). -/
def bxilog_is_enabled_for (logger : bxilog_s) (level : bxilog_level_e) : Bool :=
  decide (levelNat level ≤ levelNat logger.level)

/-- strncmp(a, b, n) == 0 for C strings a and b (lists without the NUL):
compares at most n bytes, stopping early at a NUL; the empty list stands for
the string whose first byte is NUL. -/
def strncmp_eq0 : List Char → List Char → Nat → Bool
  | _, _, 0 => true
  | [], [], _ + 1 => true
  | [], _ :: _, _ + 1 => false
  | _ :: _, [], _ + 1 => false
  | a :: as, b :: bs, n + 1 => a == b && strncmp_eq0 as bs n

/-- struct bxilog_cfg_item_s: a (name-prefix, level) rule.  The source field
is named logger_name_prefix. -/
structure bxilog_cfg_item_s where
  logger_name_pfx : List Char
  level : bxilog_level_e
deriving DecidableEq, Repr

/-- The body of the inner loop of bxilog_cfg_registered (source lines
461-467): if strncmp(cfg[i]->logger_name_prefix, logger->name, len) == 0 then
logger->level = cfg[i]->level. -/
def _cfg_apply_rule (it : bxilog_cfg_item_s) (lg : bxilog_s) : bxilog_s :=
  if strncmp_eq0 it.logger_name_pfx lg.name it.logger_name_pfx.length
  then { lg with level := it.level }
  else lg

/-- bxilog_cfg_registered (source lines 454-472), level mutation only (the
mutex discipline of that function is modelled separately): for each rule in
order, every registered logger whose name the rule's prefix matches gets the
rule's level. -/
def bxilog_cfg_registered (cfg : List bxilog_cfg_item_s) (loggers : List bxilog_s) :
    List bxilog_s :=
  cfg.foldl (fun lgs it => lgs.map (_cfg_apply_rule it)) loggers

/-- The sequential effect of all rules on one logger (the column of the two
nested loops of bxilog_cfg_registered that touches that logger). -/
def applyRulesSeq (cfg : List bxilog_cfg_item_s) (lg : bxilog_s) : bxilog_s :=
  cfg.foldl (fun l it => _cfg_apply_rule it l) lg

/-- Specification-side definition, following the claim's words: the level of
the last rule in list order whose name-prefix is a prefix of the given name,
if any rule matches. -/
def lastMatchLevel : List bxilog_cfg_item_s → List Char → Option bxilog_level_e
  | [], _ => none
  | it :: rest, name =>
    match lastMatchLevel rest name with
    | some l => some l
    | none =>
      if it.logger_name_pfx.isPrefixOf name then some it.level else none

/-- struct timespec: seconds and nanoseconds of the wall clock. -/
structure timespec where
  tv_sec : Int
  tv_nsec : Int
deriving DecidableEq, Repr

/-- struct tsd_s, the per-thread state: the cached kernel thread id and the
user thread rank (the scratch log buffer and the two zmq sockets are the
channel machinery itself and are represented by the queue and the control
messages below). -/
structure tsd_s where
  tid : Int
  thread_rank : Nat
deriving DecidableEq, Repr

/-- struct log_header_s: the fixed-size record header. -/
structure log_header_s where
  level : bxilog_level_e
  detail_time : timespec
  tid : Int
  thread_rank : Nat
  line_nb : Int
  filename_len : Nat
  funcname_len : Nat
  logname_len : Nat
  variable_len : Nat
  logmsg_len : Nat
deriving DecidableEq, Repr

/-- One encoded record frame on the data channel.  In the source this is a
single heap buffer: header, then filename, funcname, loggername and logmsg
each followed by their NUL byte, with the lengths recorded in the header; the
memcpy concatenation and the pointer-arithmetic slicing of _process_data are
inverse to each other, so the four strings are kept as fields. -/
structure LogFrame where
  header : log_header_s
  filename : List Char
  funcname : List Char
  logname : List Char
  logmsg : List Char
deriving DecidableEq, Repr

/-- One output line as assembled by _mkmsg (source lines 1376-1428): the
textual schema L|date.ns|pid.tid=rank:prog|FILE:LINE@FUNC|LOGGER|MSG keeps
the fields below; the zero-padded byte-level rendering is kept structured. -/
structure RenderedLine where
  level : bxilog_level_e
  detail_time : timespec
  tid : Int
  thread_rank : Nat
  file : List Char
  line_nb : Int
  funcname : List Char
  loggername : List Char
  msg : List Char
deriving DecidableEq, Repr

/-- Control channel message constants (source lines 160-165). -/
def FLUSH_CTRL_MSG_REQ : List Char := "BC->IH: flush?".toList

/-- Reply sent by the internal handler once a flush completed. -/
def FLUSH_CTRL_MSG_REP : List Char := "IH->BC: flushed!".toList

/-- _init (source lines 1546-1616).  The mutex, getpid, zmq context and url
creation, handler-thread creation, tsd key creation and the ready?/ready!
handshake are platform calls modelled as succeeding; what remains is the
state-machine logic: any state other than UNSET or FINALIZED is rejected with
an illegal-state error and STATE = ILLEGAL, otherwise STATE becomes
INITIALIZING.  Result: (returned bxierr, published STATE). -/
def _init (s : bxilog_state_e) : bxierr × bxilog_state_e :=
  if s ≠ .UNSET ∧ s ≠ .FINALIZED then (.illegal_state, .ILLEGAL)
  else (.ok, .INITIALIZING)

/-- bxilog_init (source lines 538-570): guard on STATE, guard on the filename
argument (fn_given = false models fn == NULL), then _init, then STATE =
INITIALIZED.  Result: (returned bxierr, published STATE). -/
def bxilog_init (fn_given : Bool) (s : bxilog_state_e) : bxierr × bxilog_state_e :=
  if s ≠ .UNSET ∧ s ≠ .FINALIZED then (.illegal_state, s)
  else if ¬ fn_given then (.config_err, s)
  else
    let r := _init s
    if r.1 ≠ .ok then r
    else (.ok, .INITIALIZED)

/-- _finalize (source lines 1636-1675).  _end_iht, pthread_join and the zmq
context destruction are platform calls modelled as succeeding; the
state-machine logic remains: any state other than INITIALIZED is rejected
with an illegal-state error and STATE = ILLEGAL, otherwise STATE becomes
FINALIZING. -/
def _finalize (s : bxilog_state_e) : bxierr × bxilog_state_e :=
  if s ≠ .INITIALIZED then (.illegal_state, .ILLEGAL)
  else (.ok, .FINALIZING)

/-- bxilog_finalize (source lines 572-587): guard on STATE, then _finalize,
then STATE = FINALIZED. -/
def bxilog_finalize (s : bxilog_state_e) : bxierr × bxilog_state_e :=
  if s ≠ .INITIALIZED then (.illegal_state, s)
  else
    let r := _finalize s
    if r.1 ≠ .ok then r
    else (.ok, .FINALIZED)

/-- bxilog_vlog_nolevelcheck (source lines 631-745).  Parameters stand for
the external calls: clock is the bxitime_get(CLOCK_REALTIME) outcome (none =
failure), tsd the per-thread state (_get_tsd modelled as succeeding), snd_err
the bxizmq_snd_data_zc outcome, queue the data channel contents, and logmsg
the vsnprintf-formatted message.  filename_len and funcname_len are the
canonical strlen + 1 the callers pass.  On a send that needed retries
(retries_max_err) the source logs a warning recursively, destroys the error
and succeeds.  Result: (returned bxierr, data channel contents). -/
def bxilog_vlog_nolevelcheck (STATE : bxilog_state_e) (clock : Option timespec)
    (tsd : tsd_s) (snd_err : bxierr) (queue : List LogFrame)
    (logger : bxilog_s) (level : bxilog_level_e)
    (filename : List Char) (funcname : List Char) (line : Int)
    (logmsg : List Char) : bxierr × List LogFrame :=
  if STATE ≠ .INITIALIZED then (.ok, queue)
  else
    match clock with
    | none => (.clock_err, queue)
    | some t =>
      let header : log_header_s :=
        { level := level
          detail_time := t
          tid := tsd.tid
          thread_rank := tsd.thread_rank
          line_nb := line
          filename_len := filename.length + 1
          funcname_len := funcname.length + 1
          logname_len := logger.name.length + 1
          variable_len := filename.length + 1 + (funcname.length + 1)
                            + (logger.name.length + 1)
          logmsg_len := logmsg.length + 1 }
      let frame : LogFrame :=
        { header := header, filename := filename, funcname := funcname,
          logname := logger.name, logmsg := logmsg }
      match snd_err with
      | .ok => (.ok, queue ++ [frame])
      | .retries_max_err => (.ok, queue ++ [frame])
      | e => (e, queue)

/-- bxilog_flush (source lines 604-629).  reply is the string received from
the control channel once the request was sent (the handler's answer).
Result: (returned bxierr, control requests sent). -/
def bxilog_flush (STATE : bxilog_state_e) (reply : List Char) :
    bxierr × List (List Char) :=
  if STATE ≠ .INITIALIZED then (.ok, [])
  else
    if reply = FLUSH_CTRL_MSG_REP then (.ok, [FLUSH_CTRL_MSG_REQ])
    else (.proto_err, [FLUSH_CTRL_MSG_REQ])

/-- IHT_LOGGER_NAME (source line 172). -/
def IHT_LOGGER_NAME : List Char := "bxilog.iht".toList

/-- The name of the function _iht_log, passed as FUNCTION to _mkmsg. -/
def IHT_FUNCNAME : List Char := "_iht_log".toList

/-- _iht_log (source lines 1473-1511), the handler's own logging: on a
bxitime_get failure it reports on stderr, zeroes the timestamp and continues;
it then assembles the line via _mkmsg (using FILENAME as the file field, the
source line of the call as line_nb, the handler's tid and rank) and writes
it.  write_result is the byte count the write(2) call reported; 0 or less
makes the function return an errno error.  Result: (returned bxierr, the
line handed to write). -/
def _iht_log (clock : Option timespec) (iht : tsd_s) (fd_filename : List Char)
    (write_result : Int) (level : bxilog_level_e) (str : List Char) :
    bxierr × RenderedLine :=
  let now : timespec :=
    match clock with
    | some t => t
    | none => { tv_sec := 0, tv_nsec := 0 }
  let line : RenderedLine :=
    { level := level
      detail_time := now
      tid := iht.tid
      thread_rank := iht.thread_rank
      file := fd_filename
      line_nb := 1501
      funcname := IHT_FUNCNAME
      loggername := IHT_LOGGER_NAME
      msg := str }
  if write_result ≤ 0 then (.platform_err, line) else (.ok, line)

/-- The message-cutting loop of _process_data (source lines 1272-1288): next
scans the message byte by byte; acc holds the bytes between s and next; a
newline emits the current segment and restarts it, the terminating NUL (the
end of the list) emits the final segment. -/
def _cut_lines_go (acc : List Char) : List Char → List (List Char)
  | [] => [acc.reverse]
  | c :: rest =>
    if c = '\n' then acc.reverse :: _cut_lines_go [] rest
    else _cut_lines_go (c :: acc) rest

/-- The segments _process_data cuts a message into. -/
def _cut_lines (msg : List Char) : List (List Char) := _cut_lines_go [] msg

/-- Join segments back with a newline between consecutive segments. -/
def joinNl : List (List Char) → List Char
  | [] => []
  | [s] => s
  | s :: rest => s ++ '\n' :: joinNl rest

/-- _basename (source lines 1731-1743), as the OFFSET it adds to the path
pointer: starting at c = path_len, the loop checks path[c] and walks down;
the first '/' found at position c yields offset c + 1; reaching c = 0 without
a '/' (position 0 is never examined) yields offset 0.  buf is the memory
reachable from the path pointer. -/
def _basename (buf : List Char) : Nat → Nat
  | 0 => 0
  | c + 1 => if buf.getD (c + 1) nulChar = '/' then c + 2 else _basename buf c

/-- The FILE field of an output line: _process_data stores the filename as
fname followed by its NUL, with nextByte the byte that follows it inside the
frame (the first byte of funcname), and calls _basename with path_len =
fname.length + 1; the field printed by %s is the C string at the returned
offset. -/
def the_file_field (fname : List Char) (nextByte : Char) : List Char :=
  let buf := fname ++ nulChar :: nextByte :: []
  List.takeWhile (fun c => c != nulChar)
    (List.drop (_basename buf (fname.length + 1)) buf)

/-- Specification-side definition, following the claim's words: the suffix of
the path that follows the final '/', and the whole path when it contains
none. -/
def spec_basename (p : List Char) : List Char :=
  (p.reverse.takeWhile (fun c => c != '/')).reverse

/-- What _log_single_line (source lines 1194-1226) sends to standard error. -/
inductive StderrItem where
  | explanatory_note
  | original_line (l : RenderedLine)
deriving DecidableEq, Repr

/-- The _mkmsg call of _log_single_line: one rendered output line sharing the
header of the record with the given message segment. -/
def _log_single_line_render (header : log_header_s) (filename : List Char)
    (funcname : List Char) (loggername : List Char) (seg : List Char) :
    RenderedLine :=
  { level := header.level
    detail_time := header.detail_time
    tid := header.tid
    thread_rank := header.thread_rank
    file := filename
    line_nb := header.line_nb
    funcname := funcname
    loggername := loggername
    msg := seg }

/-- _log_single_line (source lines 1194-1226): renders the line, writes it to
the sink fd (loglen is the byte count _mkmsg returned, written the result of
the write(2) call), and if `0 >= written` writes an explanatory note followed
by the original line to standard error.  Result: (the rendered line, the
writes made to standard error). -/
def _log_single_line (header : log_header_s) (filename : List Char)
    (funcname : List Char) (loggername : List Char) (seg : List Char)
    (loglen : Nat) (written : Int) : RenderedLine × List StderrItem :=
  let line := _log_single_line_render header filename funcname loggername seg
  (line, if written ≤ 0 then [.explanatory_note, .original_line line] else [])

/-- _process_data (source lines 1228-1298), rendering part: decode the frame,
replace the filename by what _basename yields (the header byte following the
stored filename inside the frame is the first byte of funcname, or its NUL
when funcname is empty), cut the message at newlines and render one line per
segment with the shared header.  The per-line write results do not influence
which lines are rendered, so they are not parameters here. -/
def _process_data (fr : LogFrame) : List RenderedLine :=
  let filename := the_file_field fr.filename (fr.funcname.headD nulChar)
  (_cut_lines fr.logmsg).map
    (_log_single_line_render fr.header filename fr.funcname fr.logname)

/-- The header part of a rendered line: every field except the message. -/
def headerPart (l : RenderedLine) :
    bxilog_level_e × timespec × Int × Nat × List Char × Int × List Char × List Char :=
  (l.level, l.detail_time, l.tid, l.thread_rank, l.file, l.line_nb,
   l.funcname, l.loggername)

/-- The registered-loggers global state: REGISTERED_LOGGERS as its array of
slots (a NULL slot is none; loggers are identified by their pointer, a Nat)
and REGISTERED_LOGGERS_NB. -/
structure Registry where
  slots : List (Option Nat)
  nb : Nat
deriving DecidableEq, Repr

/-- REGISTERED_LOGGERS == NULL and REGISTERED_LOGGERS_NB == 0. -/
def emptyRegistry : Registry := { slots := [], nb := 0 }

/-- bxilog_register (source lines 405-425), array-slot level: the calloc /
realloc growth keeps slots 0 .. nb-1 intact and the function writes
REGISTERED_LOGGERS[REGISTERED_LOGGERS_NB] = logger and increments the
count. -/
def bxilog_register (reg : Registry) (logger : Nat) : Registry :=
  { slots :=
      if reg.nb < reg.slots.length then reg.slots.set reg.nb (some logger)
      else reg.slots ++ [some logger]
    nb := reg.nb + 1 }

/-- bxilog_unregister (source lines 427-446): every slot among the first nb
that holds the pointer is set to NULL; if at least one was found the count is
decremented by one; a count of zero frees the array. -/
def bxilog_unregister (reg : Registry) (logger : Nat) : Registry :=
  let scanned := (reg.slots.take reg.nb).map
      (fun s => if s = some logger then none else s)
  let slots1 := scanned ++ reg.slots.drop reg.nb
  let found := (reg.slots.take reg.nb).contains (some logger)
  let nb1 := if found then reg.nb - 1 else reg.nb
  if nb1 = 0 then { slots := [], nb := 0 }
  else { slots := slots1, nb := nb1 }

/-- The invariant the consumers of the registry rely on (bxilog_cfg_registered
and bxilog_get_registered read REGISTERED_LOGGERS[0..NB-1] and dereference the
entries): the first nb slots exist and none of them is NULL. -/
def firstNbNonNull (reg : Registry) : Bool :=
  decide (reg.nb ≤ reg.slots.length)
    && (reg.slots.take reg.nb).all (fun s => s.isSome)

/-- The calls register_lock sees, in program order, together with the
mutation of the registered-loggers set they surround. -/
inductive RegistryEvent where
  | lock
  | unlock
  | mutate
deriving DecidableEq, Repr

/-- bxilog_register on register_lock: pthread_mutex_lock (line 407), the
mutation (lines 410-422), pthread_mutex_unlock (line 423). -/
def bxilog_register_events : List RegistryEvent := [.lock, .mutate, .unlock]

/-- bxilog_unregister on register_lock: pthread_mutex_lock (line 429), the
mutation (lines 431-443), pthread_mutex_unlock (line 444). -/
def bxilog_unregister_events : List RegistryEvent := [.lock, .mutate, .unlock]

/-- bxilog_cfg_registered on register_lock: pthread_mutex_unlock (line 455),
the mutation (lines 458-468), pthread_mutex_unlock (line 469).  The first
call at function entry is an unlock, not a lock. -/
def bxilog_cfg_registered_events : List RegistryEvent := [.unlock, .mutate, .unlock]

/-- A trace is well locked when every mutation happens with the mutex held,
no unlock happens without a matching earlier lock, and the trace ends with
the mutex released as often as acquired. -/
def wellLocked (held : Nat) : List RegistryEvent → Bool
  | [] => held == 0
  | .lock :: r => wellLocked (held + 1) r
  | .unlock :: r => held != 0 && wellLocked (held - 1) r
  | .mutate :: r => held != 0 && wellLocked held r

/-- BXILOG_CRITICAL as a numeric level, for the assertion of
bxilog_set_level. -/
def BXILOG_CRITICAL_VAL : Nat := levelNat .critical

/-- bxilog_set_level (source lines 770-773): asserts
`NULL != logger && BXILOG_CRITICAL >= level` and stores the level; a failed
assertion aborts the process, modelled as none. -/
def bxilog_set_level (logger : bxilog_s) (level : bxilog_level_e) :
    Option bxilog_s :=
  if levelNat level ≤ BXILOG_CRITICAL_VAL then some { logger with level := level }
  else none

/-- bxilog_get_level (source lines 765-768). -/
def bxilog_get_level (logger : bxilog_s) : bxilog_level_e := logger.level

/-- The rule list of the configuration claim: (prefix, level) in order
(empty, lowest), (a, output), (a.b, warning). -/
def demoRules : List bxilog_cfg_item_s :=
  [ { logger_name_pfx := [], level := .lowest }
  , { logger_name_pfx := "a".toList, level := .output }
  , { logger_name_pfx := "a.b".toList, level := .warning } ]

/-- The four loggers of the configuration claim, at the bxilog_new default
level (BXILOG_TRACE, source line 593). -/
def demoLoggers : List bxilog_s :=
  [ { name := "a.b.x".toList, level := .trace }
  , { name := "a.c".toList, level := .trace }
  , { name := "a.b".toList, level := .trace }
  , { name := "z".toList, level := .trace } ]

/-- A throwaway logger for concrete evaluations. -/
def demoLoggerZ : bxilog_s := { name := "z".toList, level := .trace }

/-- A concrete record header for evaluations. -/
def demoHeader : log_header_s :=
  { level := .info
    detail_time := { tv_sec := 7, tv_nsec := 11 }
    tid := 42
    thread_rank := 3
    line_nb := 10
    filename_len := 5
    funcname_len := 3
    logname_len := 3
    variable_len := 11
    logmsg_len := 6 }

/-- A concrete frame whose filename is "/f.c": a path whose only '/' is its
first character. -/
def demoFrameSlash : LogFrame :=
  { header := demoHeader
    filename := "/f.c".toList
    funcname := "fn".toList
    logname := "lg".toList
    logmsg := "hello".toList }

/-- A concrete rendered line for evaluations. -/
def demoLine : RenderedLine :=
  _log_single_line_render demoHeader ("f.c").toList ("fn").toList ("lg").toList
    ("hello").toList

theorem strncmp_eq0_len (p : List Char) : ∀ q : List Char,
    strncmp_eq0 p q p.length = p.isPrefixOf q := by
  induction p with
  | nil => intro q; cases q <;> rfl
  | cons a as ih =>
    intro q
    cases q with
    | nil => rfl
    | cons b bs =>
      show (a == b && strncmp_eq0 as bs as.length) = _
      rw [ih bs]
      rfl

theorem cfg_apply_rule_name (it : bxilog_cfg_item_s) (lg : bxilog_s) :
    (_cfg_apply_rule it lg).name = lg.name := by
  unfold _cfg_apply_rule
  split <;> rfl

theorem cfg_registered_map (cfg : List bxilog_cfg_item_s) :
    ∀ loggers : List bxilog_s,
      bxilog_cfg_registered cfg loggers = loggers.map (applyRulesSeq cfg) := by
  induction cfg with
  | nil =>
    intro loggers
    have h0 : applyRulesSeq [] = fun lg => lg := rfl
    show loggers = loggers.map (applyRulesSeq [])
    rw [h0, List.map_id']
  | cons it rest ih =>
    intro loggers
    show bxilog_cfg_registered rest (loggers.map (_cfg_apply_rule it)) = _
    rw [ih (loggers.map (_cfg_apply_rule it)), List.map_map]
    rfl


theorem applyRulesSeq_level (cfg : List bxilog_cfg_item_s) : ∀ lg : bxilog_s,
    applyRulesSeq cfg lg
      = { lg with level := (lastMatchLevel cfg lg.name).getD lg.level } := by
  induction cfg with
  | nil =>
    intro lg
    cases lg
    rfl
  | cons it rest ih =>
    intro lg
    show applyRulesSeq rest (_cfg_apply_rule it lg) = _
    rw [ih (_cfg_apply_rule it lg)]
    have hpre : it.logger_name_pfx.isPrefixOf lg.name
        = strncmp_eq0 it.logger_name_pfx lg.name it.logger_name_pfx.length :=
      (strncmp_eq0_len _ _).symm
    unfold _cfg_apply_rule
    by_cases hc : strncmp_eq0 it.logger_name_pfx lg.name it.logger_name_pfx.length = true
    · rw [if_pos hc]
      cases h : lastMatchLevel rest lg.name with
      | some l => simp [lastMatchLevel, h]
      | none => simp [lastMatchLevel, h, hpre, hc]
    · rw [if_neg hc]
      have hfalse : it.logger_name_pfx.isPrefixOf lg.name = false := by
        rw [hpre]
        exact Bool.eq_false_iff.mpr hc
      cases h : lastMatchLevel rest lg.name with
      | some l => simp [lastMatchLevel, h]
      | none => simp [lastMatchLevel, h, hfalse]

/-- C1: for every set of registered loggers, bxilog_cfg_registered applied
with the ordered rules (empty prefix, lowest), (a, output), (a.b, warning)
gives each logger the level of the last rule in list order whose prefix is a
prefix of the logger's name (keeping its level when none matches); in
particular a.b.x ends at warning and is_enabled_for info is false, a.c ends
at output and is_enabled_for debug is false, a.b ends at warning and
is_enabled_for warning is true, z ends at lowest and is_enabled_for debug is
true. -/
theorem claim_C1 :
    (∀ loggers : List bxilog_s,
        bxilog_cfg_registered demoRules loggers
          = loggers.map (fun lg =>
              { lg with level := (lastMatchLevel demoRules lg.name).getD lg.level }))
    ∧ (bxilog_cfg_registered demoRules demoLoggers).map bxilog_s.level
        = [.warning, .output, .warning, .lowest]
    ∧ bxilog_is_enabled_for
        ((bxilog_cfg_registered demoRules demoLoggers).getD 0 demoLoggerZ) .info
        = false
    ∧ bxilog_is_enabled_for
        ((bxilog_cfg_registered demoRules demoLoggers).getD 1 demoLoggerZ) .debug
        = false
    ∧ bxilog_is_enabled_for
        ((bxilog_cfg_registered demoRules demoLoggers).getD 2 demoLoggerZ) .warning
        = true
    ∧ bxilog_is_enabled_for
        ((bxilog_cfg_registered demoRules demoLoggers).getD 3 demoLoggerZ) .debug
        = true := by
  refine ⟨?_, by decide, by decide, by decide, by decide, by decide⟩
  intro loggers
  rw [cfg_registered_map]
  have h : applyRulesSeq demoRules = fun lg =>
      { lg with level := (lastMatchLevel demoRules lg.name).getD lg.level } :=
    funext (applyRulesSeq_level demoRules)
  rw [h]

/-- C2: for every lifecycle state s, bxilog_init returns an illegal-state
error (leaving the published state unchanged) when s is neither UNSET nor
FINALIZED, and bxilog_finalize returns an illegal-state error when s is not
INITIALIZED; from the allowed states, init ends with the state published as
INITIALIZED and finalize ends with the state published as FINALIZED. -/
theorem claim_C2 (s : bxilog_state_e) :
    (s ≠ .UNSET → s ≠ .FINALIZED →
       bxilog_init true s = (.illegal_state, s))
    ∧ (s ≠ .INITIALIZED → bxilog_finalize s = (.illegal_state, s))
    ∧ ((s = .UNSET ∨ s = .FINALIZED) →
       bxilog_init true s = (.ok, .INITIALIZED))
    ∧ (s = .INITIALIZED → bxilog_finalize s = (.ok, .FINALIZED)) := by
  cases s <;> exact ⟨by decide, by decide, by decide, by decide⟩

/-- Witness for C2 at the concrete states INITIALIZING, FORKED, UNSET,
FINALIZED and INITIALIZED. -/
theorem claim_C2_witness :
    bxilog_init true .INITIALIZING = (.illegal_state, .INITIALIZING)
    ∧ bxilog_finalize .FORKED = (.illegal_state, .FORKED)
    ∧ bxilog_init true .UNSET = (.ok, .INITIALIZED)
    ∧ bxilog_init true .FINALIZED = (.ok, .INITIALIZED)
    ∧ bxilog_finalize .INITIALIZED = (.ok, .FINALIZED) :=
  ⟨(claim_C2 .INITIALIZING).1 (by decide) (by decide),
   (claim_C2 .FORKED).2.1 (by decide),
   (claim_C2 .UNSET).2.2.1 (Or.inl rfl),
   (claim_C2 .FINALIZED).2.2.1 (Or.inr rfl),
   (claim_C2 .INITIALIZED).2.2.2 rfl⟩

/-- C3: for every input, when the lifecycle state is not INITIALIZED the log
operation returns BXIERR_OK with the data channel unchanged (the record is
silently discarded) and bxilog_flush returns BXIERR_OK without sending any
control request. -/
theorem claim_C3 (STATE : bxilog_state_e) (h : STATE ≠ .INITIALIZED)
    (clock : Option timespec) (tsd : tsd_s) (snd_err : bxierr)
    (queue : List LogFrame) (logger : bxilog_s) (level : bxilog_level_e)
    (filename funcname : List Char) (line : Int) (logmsg : List Char)
    (reply : List Char) :
    bxilog_vlog_nolevelcheck STATE clock tsd snd_err queue logger level
        filename funcname line logmsg = (.ok, queue)
    ∧ bxilog_flush STATE reply = (.ok, []) := by
  constructor
  · unfold bxilog_vlog_nolevelcheck
    rw [if_pos h]
  · unfold bxilog_flush
    rw [if_pos h]

/-- Witness for C3: a concrete log call and flush call in state FINALIZED. -/
theorem claim_C3_witness :
    bxilog_vlog_nolevelcheck .FINALIZED (some { tv_sec := 7, tv_nsec := 11 })
        { tid := 42, thread_rank := 3 } .ok [] demoLoggerZ .info
        ("f.c").toList ("fn").toList 10 ("hello").toList = (.ok, [])
    ∧ bxilog_flush .FINALIZED FLUSH_CTRL_MSG_REP = (.ok, []) :=
  claim_C3 .FINALIZED (by decide) (some { tv_sec := 7, tv_nsec := 11 })
    { tid := 42, thread_rank := 3 } .ok [] demoLoggerZ .info
    ("f.c").toList ("fn").toList 10 ("hello").toList FLUSH_CTRL_MSG_REP

theorem cut_go_ne_nil (msg : List Char) : ∀ acc : List Char,
    _cut_lines_go acc msg ≠ [] := by
  induction msg with
  | nil => intro acc; simp [_cut_lines_go]
  | cons c rest ih =>
    intro acc
    unfold _cut_lines_go
    by_cases hc : c = '\n'
    · rw [if_pos hc]
      simp
    · rw [if_neg hc]
      exact ih (c :: acc)

theorem cut_go_length (msg : List Char) : ∀ acc : List Char,
    (_cut_lines_go acc msg).length = msg.count '\n' + 1 := by
  induction msg with
  | nil => intro acc; simp [_cut_lines_go]
  | cons c rest ih =>
    intro acc
    unfold _cut_lines_go
    by_cases hc : c = '\n'
    · rw [if_pos hc]
      simp [List.count_cons, hc, ih]
    · rw [if_neg hc]
      rw [ih (c :: acc)]
      have : ((c :: rest).count '\n') = rest.count '\n' := by
        simp [List.count_cons, hc]
      rw [this]

theorem joinNl_cons₂ (s t : List Char) (r : List (List Char)) :
    joinNl (s :: t :: r) = s ++ '\n' :: joinNl (t :: r) := rfl

theorem cut_go_join (msg : List Char) : ∀ acc : List Char,
    joinNl (_cut_lines_go acc msg) = acc.reverse ++ msg := by
  induction msg with
  | nil => intro acc; simp [_cut_lines_go, joinNl]
  | cons c rest ih =>
    intro acc
    unfold _cut_lines_go
    by_cases hc : c = '\n'
    · rw [if_pos hc]
      cases h : _cut_lines_go [] rest with
      | nil => exact absurd h (cut_go_ne_nil rest [])
      | cons t r =>
        rw [joinNl_cons₂]
        rw [← h, ih []]
        simp [hc]
    · rw [if_neg hc]
      rw [ih (c :: acc)]
      simp

theorem map_const_replicate {α β : Type} (b : β) (l : List α) :
    l.map (fun _ => b) = List.replicate l.length b := by
  induction l with
  | nil => rfl
  | cons a r ih => simp [ih, List.replicate]

/-- C4: for every record frame whose message contains exactly k newline
characters, _process_data renders exactly k + 1 output lines, one per
newline-delimited segment in source order (joining the rendered messages
with a newline gives the original message back), and each line carries the
same header fields (level, timestamp, thread id, thread rank, source file
and line, function name, logger name). -/
theorem claim_C4 (fr : LogFrame) :
    (_process_data fr).length = fr.logmsg.count '\n' + 1
    ∧ (_process_data fr).map RenderedLine.msg = _cut_lines fr.logmsg
    ∧ joinNl ((_process_data fr).map RenderedLine.msg) = fr.logmsg
    ∧ (_process_data fr).map headerPart
        = List.replicate (fr.logmsg.count '\n' + 1)
            (fr.header.level, fr.header.detail_time, fr.header.tid,
             fr.header.thread_rank,
             the_file_field fr.filename (fr.funcname.headD nulChar),
             fr.header.line_nb, fr.funcname, fr.logname) := by
  have hmsg : (_process_data fr).map RenderedLine.msg = _cut_lines fr.logmsg := by
    unfold _process_data
    rw [List.map_map]
    have : (RenderedLine.msg ∘
        _log_single_line_render fr.header
          (the_file_field fr.filename (fr.funcname.headD nulChar))
          fr.funcname fr.logname) = fun seg => seg := rfl
    rw [this, List.map_id']
  refine ⟨?_, hmsg, ?_, ?_⟩
  · unfold _process_data
    rw [List.length_map]
    exact cut_go_length fr.logmsg []
  · rw [hmsg]
    exact cut_go_join fr.logmsg []
  · unfold _process_data
    rw [List.map_map]
    have : (headerPart ∘
        _log_single_line_render fr.header
          (the_file_field fr.filename (fr.funcname.headD nulChar))
          fr.funcname fr.logname)
        = fun _ => (fr.header.level, fr.header.detail_time, fr.header.tid,
             fr.header.thread_rank,
             the_file_field fr.filename (fr.funcname.headD nulChar),
             fr.header.line_nb, fr.funcname, fr.logname) := rfl
    rw [this, map_const_replicate]
    have hlen : (_cut_lines fr.logmsg).length = fr.logmsg.count '\n' + 1 :=
      cut_go_length fr.logmsg []
    rw [hlen]

/-- Counterexample to C5: a concrete log call (state INITIALIZED, clock read
failing) on which bxilog_vlog_nolevelcheck returns the clock error — not
success — and enqueues nothing, against the claim that every log call
substitutes a zero timestamp and returns success when the clock fails. -/
theorem claim_C5_cex :
    bxilog_vlog_nolevelcheck .INITIALIZED none { tid := 42, thread_rank := 3 }
        .ok [] demoLoggerZ .info ("f.c").toList ("fn").toList 10
        ("hello").toList = (.clock_err, [])
    ∧ (bxilog_vlog_nolevelcheck .INITIALIZED none { tid := 42, thread_rank := 3 }
        .ok [] demoLoggerZ .info ("f.c").toList ("fn").toList 10
        ("hello").toList).1 ≠ .ok := by
  exact ⟨rfl, by decide⟩

/-- C5 amended: in the producer log path (bxilog_vlog_nolevelcheck) a wall
clock read failure is returned to the caller as an error and nothing is
enqueued; only the handler's own logging (_iht_log) substitutes a zero
timestamp and continues to successful completion. -/
theorem claim_C5 :
    (∀ (tsd : tsd_s) (snd_err : bxierr) (queue : List LogFrame)
       (logger : bxilog_s) (level : bxilog_level_e)
       (filename funcname : List Char) (line : Int) (logmsg : List Char),
       bxilog_vlog_nolevelcheck .INITIALIZED none tsd snd_err queue logger
           level filename funcname line logmsg = (.clock_err, queue))
    ∧ (∀ (iht : tsd_s) (fd_filename : List Char) (write_result : Int)
         (level : bxilog_level_e) (str : List Char), 0 < write_result →
         (_iht_log none iht fd_filename write_result level str).1 = .ok
         ∧ (_iht_log none iht fd_filename write_result level str).2.detail_time
             = { tv_sec := 0, tv_nsec := 0 }) := by
  constructor
  · intro tsd snd_err queue logger level filename funcname line logmsg
    rfl
  · intro iht fd_filename write_result level str hw
    unfold _iht_log
    rw [if_neg (by omega : ¬ write_result ≤ 0)]
    exact ⟨rfl, rfl⟩

/-- Witness for C5 amended: the handler-side log with a failing clock and a
successful write of 9 bytes carries the zero timestamp and succeeds. -/
theorem claim_C5_witness :
    (_iht_log none { tid := 42, thread_rank := 3 } ("-").toList 9 .critical
        ("Signal=11").toList).1 = .ok
    ∧ (_iht_log none { tid := 42, thread_rank := 3 } ("-").toList 9 .critical
        ("Signal=11").toList).2.detail_time = { tv_sec := 0, tv_nsec := 0 } :=
  claim_C5.2 { tid := 42, thread_rank := 3 } ("-").toList 9 .critical
    ("Signal=11").toList (by decide)

/-- Counterexample to C6: a short but positive write — the rendered line is
loglen = 2 bytes, write(2) returns written = 1 < 2 — on which
_log_single_line writes nothing to standard error, against the claim that
every write of fewer than n bytes triggers the explanatory-note fallback. -/
theorem claim_C6_cex :
    (1 : Int) < 2
    ∧ (_log_single_line demoHeader ("f.c").toList ("fn").toList ("lg").toList
        ("hello").toList 2 1).2 = []
    ∧ (_log_single_line demoHeader ("f.c").toList ("fn").toList ("lg").toList
        ("hello").toList 2 1).2
        ≠ [.explanatory_note, .original_line demoLine] := by
  exact ⟨by decide, rfl, by decide⟩

/-- C6 amended: _log_single_line writes the explanatory line followed by the
original line to standard error exactly when the write to the sink returns
zero or a negative value; whenever the write returns a positive byte count —
in particular a full write of exactly loglen bytes, but also a positive short
write — nothing is written to standard error. -/
theorem claim_C6 (header : log_header_s) (filename funcname loggername seg :
    List Char) (loglen : Nat) (written : Int) :
    (written ≤ 0 →
      (_log_single_line header filename funcname loggername seg loglen
          written).2
        = [.explanatory_note,
           .original_line (_log_single_line_render header filename funcname
             loggername seg)])
    ∧ (0 < written →
      (_log_single_line header filename funcname loggername seg loglen
          written).2 = []) := by
  constructor
  · intro hw
    simp [_log_single_line, hw]
  · intro hw
    simp [_log_single_line, show ¬ written ≤ 0 by omega]

/-- Witness for C6 amended: a failed write (written = -1) produces the two
standard-error writes, a full write (written = loglen = 2) produces none. -/
theorem claim_C6_witness :
    (_log_single_line demoHeader ("f.c").toList ("fn").toList ("lg").toList
        ("hello").toList 2 (-1)).2
      = [.explanatory_note,
         .original_line (_log_single_line_render demoHeader ("f.c").toList
           ("fn").toList ("lg").toList ("hello").toList)]
    ∧ (_log_single_line demoHeader ("f.c").toList ("fn").toList ("lg").toList
        ("hello").toList 2 2).2 = [] :=
  ⟨(claim_C6 demoHeader ("f.c").toList ("fn").toList ("lg").toList
      ("hello").toList 2 (-1)).1 (by decide),
   (claim_C6 demoHeader ("f.c").toList ("fn").toList ("lg").toList
      ("hello").toList 2 2).2 (by decide)⟩

/-- C7: among the three mutators of the registered-loggers set,
bxilog_register and bxilog_unregister wrap their mutation in a balanced
pthread_mutex_lock / pthread_mutex_unlock pair on register_lock, but
bxilog_cfg_registered calls pthread_mutex_unlock at entry (source line 455)
instead of lock: its mutation runs without the mutex held and its trace
performs two unlocks and no lock, so it is not well locked. -/
theorem claim_C7 :
    wellLocked 0 bxilog_register_events = true
    ∧ wellLocked 0 bxilog_unregister_events = true
    ∧ bxilog_cfg_registered_events = [.unlock, .mutate, .unlock]
    ∧ wellLocked 0 bxilog_cfg_registered_events = false := by
  decide

theorem basename_no_slash (buf : List Char) : ∀ k : Nat,
    (∀ j, 1 ≤ j → j ≤ k → buf.getD j nulChar ≠ '/') → _basename buf k = 0 := by
  intro k
  induction k with
  | zero => intro _; rfl
  | succ c ih =>
    intro h
    unfold _basename
    rw [if_neg (h (c + 1) (by omega) (by omega))]
    exact ih (fun j h1 h2 => h j h1 (by omega))

theorem basename_find (buf : List Char) : ∀ k i : Nat, 1 ≤ i → i ≤ k →
    buf.getD i nulChar = '/' →
    (∀ j, i < j → j ≤ k → buf.getD j nulChar ≠ '/') →
    _basename buf k = i + 1 := by
  intro k
  induction k with
  | zero =>
    intro i h1 h2 _ _
    exact absurd (h1.trans h2) (by decide)
  | succ c ih =>
    intro i h1 h2 hs hnone
    unfold _basename
    by_cases he : i = c + 1
    · subst he
      rw [if_pos hs]
    · have hup : buf.getD (c + 1) nulChar ≠ '/' := hnone (c + 1) (by omega) (by omega)
      rw [if_neg hup]
      exact ih i h1 (by omega) hs (fun j hj1 hj2 => hnone j hj1 (by omega))

theorem takeWhile_upto_nul (r : List Char) : ∀ p : List Char, nulChar ∉ p →
    List.takeWhile (fun c => c != nulChar) (p ++ nulChar :: r) = p := by
  intro p
  induction p with
  | nil =>
    intro _
    simp [List.takeWhile_cons]
  | cons a as ih =>
    intro h
    have ha : a ≠ nulChar := by
      intro he
      exact h (he ▸ List.mem_cons_self a as)
    have hm : nulChar ∉ as := fun hm => h (List.mem_cons_of_mem a hm)
    simp [List.takeWhile_cons, ha, ih hm]

/-- Counterexample to C8: the frame whose record filename is "/f.c" — a
non-empty path whose final (and only) '/' is its first character — is
rendered with FILE field "/f.c", not the suffix "f.c" that follows the final
'/' as the claim states. -/
theorem claim_C8_cex :
    (_process_data demoFrameSlash).map RenderedLine.file = [("/f.c").toList]
    ∧ spec_basename (("/f.c").toList) = ("f.c").toList
    ∧ (_process_data demoFrameSlash).map RenderedLine.file
        ≠ [spec_basename (("/f.c").toList)] := by
  exact ⟨by decide, by decide, by decide⟩

/-- C8 amended: provided the frame byte following the stored path is not '/'
(it is the first byte of the function name), the FILE field printed for a
path with no NUL byte is the suffix that follows the final '/' occurring at
a NONZERO index, and the whole path when no '/' occurs at a nonzero index —
in particular a path whose only '/' is its leading character is printed
whole. -/
theorem claim_C8 (p : List Char) (b : Char) (hnul : nulChar ∉ p)
    (hb : b ≠ '/') :
    ((∀ j, 1 ≤ j → j < p.length → p.getD j nulChar ≠ '/') →
        the_file_field p b = p)
    ∧ (∀ i, 1 ≤ i → i < p.length → p.getD i nulChar = '/' →
        (∀ j, i < j → j < p.length → p.getD j nulChar ≠ '/') →
        the_file_field p b = p.drop (i + 1)) := by
  have hnul_slash : nulChar ≠ '/' := by decide
  have hmid : (p ++ nulChar :: b :: []).getD p.length nulChar = nulChar := by
    rw [List.getD_append_right _ _ _ _ (Nat.le_refl _)]
    simp
  have htop : (p ++ nulChar :: b :: []).getD (p.length + 1) nulChar = b := by
    rw [List.getD_append_right _ _ _ _ (by omega)]
    simp
  have hin : ∀ j, j < p.length →
      (p ++ nulChar :: b :: []).getD j nulChar = p.getD j nulChar :=
    fun j hj => List.getD_append _ _ _ _ hj
  constructor
  · intro hno
    have hzero : _basename (p ++ nulChar :: b :: []) (p.length + 1) = 0 := by
      apply basename_no_slash
      intro j h1 h2
      by_cases hj : j < p.length
      · rw [hin j hj]
        exact hno j h1 hj
      · by_cases hj2 : j = p.length
        · rw [hj2, hmid]
          exact hnul_slash
        · have : j = p.length + 1 := by omega
          rw [this, htop]
          exact hb
    have hdef : the_file_field p b
        = List.takeWhile (fun c => c != nulChar)
            (List.drop (_basename (p ++ nulChar :: b :: []) (p.length + 1))
              (p ++ nulChar :: b :: [])) := rfl
    rw [hdef, hzero, List.drop_zero]
    exact takeWhile_upto_nul (b :: []) p hnul
  · intro i h1 h2 hs hnone
    have hfind : _basename (p ++ nulChar :: b :: []) (p.length + 1) = i + 1 := by
      apply basename_find _ _ i h1 (by omega)
      · rw [hin i h2]
        exact hs
      · intro j hj1 hj2
        by_cases hj : j < p.length
        · rw [hin j hj]
          exact hnone j hj1 hj
        · by_cases hj3 : j = p.length
          · rw [hj3, hmid]
            exact hnul_slash
          · have : j = p.length + 1 := by omega
            rw [this, htop]
            exact hb
    have hdef : the_file_field p b
        = List.takeWhile (fun c => c != nulChar)
            (List.drop (_basename (p ++ nulChar :: b :: []) (p.length + 1))
              (p ++ nulChar :: b :: [])) := rfl
    rw [hdef, hfind, List.drop_append_of_le_length (by omega)]
    exact takeWhile_upto_nul (b :: []) (p.drop (i + 1))
      (fun hm => hnul (List.mem_of_mem_drop hm))

/-- Witness for C8 amended: the path d/f.c (final '/' at index 1) prints as
f.c, and the slash-free path f.c prints whole. -/
theorem claim_C8_witness :
    the_file_field (("d/f.c").toList) 'f' = ("f.c").toList
    ∧ the_file_field (("f.c").toList) 'n' = ("f.c").toList := by
  constructor
  · have h := (claim_C8 (("d/f.c").toList) 'f' (by decide) (by decide)).2 1
      (by decide) (by decide) (by decide)
      (by
        intro j h1 h2
        rw [show (("d/f.c").toList).length = 5 from rfl] at h2
        interval_cases j <;> decide)
    rw [h]
    decide
  · have h := (claim_C8 (("f.c").toList) 'n' (by decide) (by decide)).1
      (by
        intro j h1 h2
        rw [show (("f.c").toList).length = 3 from rfl] at h2
        interval_cases j <;> decide)
    rw [h]

/-- C9, evaluated at the failing input: starting from the empty registry,
register logger 1 then logger 2 (the invariant holds and logger 1 occupies
exactly one slot); unregistering logger 1 NULLs slot 0 but only decrements
the count, so the first REGISTERED_LOGGERS_NB = 1 entries then contain a
NULL slot and the invariant is violated. -/
theorem claim_C9 :
    firstNbNonNull (bxilog_register (bxilog_register emptyRegistry 1) 2) = true
    ∧ ((bxilog_register (bxilog_register emptyRegistry 1) 2).slots.take
        (bxilog_register (bxilog_register emptyRegistry 1) 2).nb).count (some 1)
        = 1
    ∧ bxilog_unregister (bxilog_register (bxilog_register emptyRegistry 1) 2) 1
        = { slots := [none, some 2], nb := 1 }
    ∧ firstNbNonNull
        (bxilog_unregister (bxilog_register (bxilog_register emptyRegistry 1) 2) 1)
        = false := by
  decide

/-- C10, evaluated at the failing input: bxilog_set_level asserts
BXILOG_CRITICAL >= level, so it aborts (none) for BXILOG_ERROR — and for
every one of the nine levels whose numeric value exceeds critical — while it
does succeed, with get_level returning the stored level, for the three most
severe levels. -/
theorem claim_C10 :
    bxilog_set_level demoLoggerZ .error = none
    ∧ bxilog_set_level demoLoggerZ .debug = none
    ∧ bxilog_set_level demoLoggerZ .lowest = none
    ∧ (bxilog_set_level demoLoggerZ .alert).map bxilog_get_level = some .alert
    ∧ (bxilog_set_level demoLoggerZ .critical).map bxilog_get_level
        = some .critical := by
  decide
